import Mathlib

/-!
Shallow embedding of the NewSQL-Server-MCP gateway (a Python MCP server for
SQL Server) and proofs about its specification claims.

Strings are modelled as lists of characters (`Str`).  `str.upper`,
`str.strip`, `str.split` and the regex whitespace class `\s` are embedded
by their documented ASCII behaviour; the Unicode-aware regex word class
`\w` is tabulated on the Latin-1 range (see `pyWordChar`).
-/

/-- Python strings, modelled as lists of characters. -/
abbrev Str := List Char

/-- Coerce a Lean string literal to the model's string type. -/
def strOf (s : String) : Str := s.data

/-- Python whitespace characters (`str.split`, `str.strip`, regex `\s`),
ASCII fragment: space, tab, newline, carriage return, vertical tab, form feed. -/
def pyIsSpace (c : Char) : Bool :=
  c = ' ' || c = '\t' || c = '\n' || c = '\r' || c = '\x0b' || c = '\x0c'

/-- Python `str.upper`, ASCII fragment: map each lowercase letter to the
corresponding uppercase letter, leave every other character unchanged. -/
def pyToUpper (c : Char) : Char :=
  match c with
  | 'a' => 'A' | 'b' => 'B' | 'c' => 'C' | 'd' => 'D' | 'e' => 'E' | 'f' => 'F'
  | 'g' => 'G' | 'h' => 'H' | 'i' => 'I' | 'j' => 'J' | 'k' => 'K' | 'l' => 'L'
  | 'm' => 'M' | 'n' => 'N' | 'o' => 'O' | 'p' => 'P' | 'q' => 'Q' | 'r' => 'R'
  | 's' => 'S' | 't' => 'T' | 'u' => 'U' | 'v' => 'V' | 'w' => 'W' | 'x' => 'X'
  | 'y' => 'Y' | 'z' => 'Z'
  | d => d

/-- Uppercase a whole string (Python `s.upper()`). -/
def pyUpper (s : Str) : Str := s.map pyToUpper

/-- Python `str.strip()` with no argument: drop whitespace from both ends. -/
def pyStrip (s : Str) : Str :=
  ((s.dropWhile pyIsSpace).reverse.dropWhile pyIsSpace).reverse

/-- Helper for `pySplitWs`: scan the string, growing the current word in
`acc` (reversed); emit `acc` at each whitespace boundary and at the end. -/
def pySplitWsAux : Str → Str → List Str
  | [], acc => if acc.isEmpty then [] else [acc.reverse]
  | c :: rest, acc =>
    if pyIsSpace c then
      if acc.isEmpty then pySplitWsAux rest []
      else acc.reverse :: pySplitWsAux rest []
    else pySplitWsAux rest (c :: acc)

/-- Python `str.split()` with no argument: split on runs of whitespace,
discarding empty pieces (so no word is empty and no word contains
whitespace). -/
def pySplitWs (s : Str) : List Str := pySplitWsAux s []

/-- Does `needle` occur as a contiguous substring of `hay`?
(Python's `in` operator on strings, and `re.search` of a literal.) -/
def containsSub (needle hay : Str) : Bool :=
  hay.tails.any (fun t => needle.isPrefixOf t)

/-- The suffix of `hay` that follows the first occurrence of `needle`,
or `none` when `needle` does not occur. -/
def dropAfterFirst (needle : Str) : Str → Option Str
  | [] => if needle.isEmpty then some [] else none
  | c :: rest =>
    if needle.isPrefixOf (c :: rest) then some ((c :: rest).drop needle.length)
    else dropAfterFirst needle rest

theorem dropAfterFirst_length {needle : Str} (hn : needle ≠ []) :
    ∀ {s r : Str}, dropAfterFirst needle s = some r → r.length < s.length := by
  intro s
  induction s with
  | nil => intro r h; simp [dropAfterFirst, List.isEmpty_iff, hn] at h
  | cons c rest ih =>
    intro r h
    unfold dropAfterFirst at h
    split at h
    · have h1 : 1 ≤ needle.length := by
        cases needle with
        | nil => exact absurd rfl hn
        | cons _ _ => simp
      have h2 : r = (c :: rest).drop needle.length := by
        exact (Option.some_inj.mp h).symm
      subst h2
      simp only [List.length_drop, List.length_cons]
      omega
    · exact Nat.lt_trans (ih h) (by simp)

/-- Model of `re.sub(r"--.*?\n", " ", q)`: each line comment, from `--`
through the first following newline, is replaced by one space (a non-greedy
match runs from `--` up to and including the first newline); a trailing `--`
comment with no newline after it matches nothing and is kept verbatim (and
then no later match is possible either, since the rest of the string holds
no newline at all).  The fuel argument makes the recursion structural; each
recursive call strictly shrinks the string, so fuel `s.length` never runs
out. -/
def stripLineCommentsF : Nat → Str → Str
  | 0, s => s
  | _ + 1, [] => []
  | fuel + 1, '-' :: '-' :: rest =>
    match dropAfterFirst (strOf "\n") rest with
    | some rest2 => ' ' :: stripLineCommentsF fuel rest2
    | none => '-' :: '-' :: rest
  | fuel + 1, c :: rest => c :: stripLineCommentsF fuel rest

def stripLineComments (s : Str) : Str := stripLineCommentsF s.length s

/-- Model of `re.sub(r"/\*.*?\*/", " ", q, flags=re.DOTALL)`: each block
comment, from slash-star through the first following star-slash, is replaced
by one space; an unterminated opener matches nothing and is kept verbatim
(and no later opener can match either, since no closer occurs at all).
Fuelled as in `stripLineCommentsF`. -/
def stripBlockCommentsF : Nat → Str → Str
  | 0, s => s
  | _ + 1, [] => []
  | fuel + 1, '/' :: '*' :: rest =>
    match dropAfterFirst (strOf "*/") rest with
    | some rest2 => ' ' :: stripBlockCommentsF fuel rest2
    | none => '/' :: '*' :: rest
  | fuel + 1, c :: rest => c :: stripBlockCommentsF fuel rest

def stripBlockComments (s : Str) : Str := stripBlockCommentsF s.length s

/-- The cleaned form of a query as computed by
`QueryValidator.validate_read_only_query`: line comments stripped, block
comments stripped, whitespace collapsed (`" ".join(q.split())`), uppercased. -/
def cleanQuery (q : Str) : Str :=
  pyUpper (List.intercalate [' '] (pySplitWs (stripBlockComments (stripLineComments q))))

/-- Embedding of `QueryValidator.FORBIDDEN_KEYWORDS` (a Python set; embedded as a list —
the scan below only needs membership, and the claims only use the boolean
verdict, which is independent of iteration order). -/
def FORBIDDEN_KEYWORDS : List Str :=
  [strOf "INSERT", strOf "UPDATE", strOf "DELETE", strOf "DROP", strOf "CREATE",
   strOf "ALTER", strOf "TRUNCATE", strOf "EXEC", strOf "EXECUTE", strOf "SP_",
   strOf "XP_", strOf "BACKUP", strOf "RESTORE", strOf "BULK", strOf "OPENROWSET",
   strOf "OPENDATASOURCE", strOf "OPENQUERY", strOf "OPENXML"]

/-- The four `dangerous_patterns` regex searches, specialised to the cleaned
text they are applied to.  The cleaned text is a single-space-separated,
newline-free string, so on it `;\s*SELECT` is equivalent to the two literal
searches below, `\s+` is equivalent to a single space, and `.*` (no DOTALL)
can reach any later position; a regex search succeeds at some position iff
it succeeds from the first occurrence of its literal head, whose suffix is
the longest one available. -/
def hasDangerousPattern (c : Str) : Option Str :=
  if containsSub (strOf ";SELECT") c || containsSub (strOf "; SELECT") c then
    some (strOf ";\\s*SELECT")
  else if (match dropAfterFirst (strOf "UNION ALL SELECT") c with
           | some rest => containsSub (strOf "FROM INFORMATION_SCHEMA") rest
           | none => false) then
    some (strOf "UNION\\s+ALL\\s+SELECT.*FROM\\s+INFORMATION_SCHEMA")
  else if containsSub (strOf "@@") c then some (strOf "@@")
  else if containsSub (strOf "WAITFOR") c then some (strOf "WAITFOR")
  else none

/-- Embedding of `QueryValidator.validate_read_only_query`: returns
`(is_valid, error_message)`. -/
def validate_read_only_query (q : Str) : Bool × Str :=
  if q.isEmpty || (pyStrip q).isEmpty then (false, strOf "Query vazia")
  else
    let qc := cleanQuery q
    if !((strOf "SELECT").isPrefixOf (pyStrip qc)) then
      (false, strOf "Apenas queries SELECT são permitidas em modo READ_ONLY")
    else
      match FORBIDDEN_KEYWORDS.find? (fun k => containsSub k qc) with
      | some k =>
        (false, strOf "Palavra-chave \x27" ++ k ++ strOf "\x27 não permitida em modo READ_ONLY")
      | none =>
        match hasDangerousPattern qc with
        | some p => (false, strOf "Padrão perigoso detectado: " ++ p)
        | none => (true, [])

theorem pyIsSpace_pyToUpper (c : Char) : pyIsSpace (pyToUpper c) = pyIsSpace c := by
  unfold pyToUpper
  split <;> rfl

/-- Every word emitted by the splitter is nonempty and contains no
whitespace (given that the accumulated partial word contains none). -/
theorem pySplitWsAux_words :
    ∀ (s acc : Str), (∀ c ∈ acc, pyIsSpace c = false) →
      ∀ w ∈ pySplitWsAux s acc, w ≠ [] ∧ ∀ c ∈ w, pyIsSpace c = false := by
  intro s
  induction s with
  | nil =>
    intro acc hacc w hw
    unfold pySplitWsAux at hw
    split at hw
    · simp at hw
    · next hne =>
      have : w = acc.reverse := by simpa using hw
      subst this
      refine ⟨by simpa [List.isEmpty_iff] using hne, ?_⟩
      intro c hc
      exact hacc c (List.mem_reverse.mp hc)
  | cons c rest ih =>
    intro acc hacc w hw
    unfold pySplitWsAux at hw
    split at hw
    · split at hw
      · exact ih [] (by simp) w hw
      · next hne =>
        rcases List.mem_cons.mp hw with hweq | hwmem
        · subst hweq
          refine ⟨by simpa [List.isEmpty_iff] using hne, ?_⟩
          intro d hd
          exact hacc d (List.mem_reverse.mp hd)
        · exact ih [] (by simp) w hwmem
    · next hcsp =>
      refine ih (c :: acc) ?_ w hw
      intro d hd
      rcases List.mem_cons.mp hd with h1 | h2
      · subst h1; simpa using hcsp
      · exact hacc d h2

theorem pySplitWs_first {s : Str} {w : Str} {ws : List Str}
    (h : pySplitWs s = w :: ws) : ∃ c t, w = c :: t ∧ pyIsSpace c = false := by
  have hmem : w ∈ pySplitWsAux s [] := by rw [show pySplitWsAux s [] = pySplitWs s from rfl, h]; simp
  obtain ⟨hne, hall⟩ := pySplitWsAux_words s [] (by simp) w hmem
  cases w with
  | nil => exact absurd rfl hne
  | cons c t => exact ⟨c, t, rfl, hall c (by simp)⟩

/-- The cleaned query text is either empty or begins with a non-whitespace
character (Python `" ".join(s.split())` never yields leading whitespace, and
uppercasing maps no character to whitespace). -/
theorem cleanQuery_head (q : Str) :
    cleanQuery q = [] ∨ ∃ c t, cleanQuery q = c :: t ∧ pyIsSpace c = false := by
  cases hL : cleanQuery q with
  | nil => exact Or.inl rfl
  | cons c t =>
    right
    refine ⟨c, t, rfl, ?_⟩
    have hhead : (cleanQuery q).head? = some c := by rw [hL]; rfl
    unfold cleanQuery pyUpper at hhead
    cases hws : pySplitWs (stripBlockComments (stripLineComments q)) with
    | nil => rw [hws] at hhead; simp [List.intercalate] at hhead
    | cons w ws =>
      obtain ⟨d, t', hw, hd⟩ := pySplitWs_first hws
      rw [hws, hw] at hhead
      have hint : (List.intercalate [' '] ((d :: t') :: ws)).head? = some d := by
        cases ws <;> simp [List.intercalate]
      rw [List.head?_map, hint] at hhead
      have : c = pyToUpper d := by simpa using hhead.symm
      rw [this, pyIsSpace_pyToUpper]
      exact hd

/-- Stripping whitespace cannot create a `SELECT` prefix: if the stripped
cleaned text starts with `SELECT`, so does the cleaned text itself. -/
theorem select_prefix_of_strip (q : Str)
    (h : (strOf "SELECT").isPrefixOf (pyStrip (cleanQuery q)) = true) :
    (strOf "SELECT").isPrefixOf (cleanQuery q) = true := by
  rw [List.isPrefixOf_iff_prefix] at h ⊢
  rcases cleanQuery_head q with hnil | ⟨c, t, hct, hc⟩
  · rw [hnil] at h
    have : pyStrip ([] : Str) = [] := rfl
    rw [this] at h
    exact absurd (List.eq_nil_of_prefix_nil h) (by decide)
  · have hleft : (cleanQuery q).dropWhile pyIsSpace = cleanQuery q := by
      rw [hct, List.dropWhile_cons, if_neg (by simp [hc])]
    have hstrip : pyStrip (cleanQuery q) <+: cleanQuery q := by
      unfold pyStrip
      rw [hleft]
      have hs : ((cleanQuery q).reverse.dropWhile pyIsSpace) <:+ (cleanQuery q).reverse :=
        List.dropWhile_suffix pyIsSpace
      have h2 := List.reverse_prefix.mpr hs
      simpa using h2
    exact h.trans hstrip

/-- C1: the classifier denies every query whose cleaned form (comments
stripped, whitespace collapsed, uppercased) does not start with `SELECT`,
and every query whose cleaned form contains a forbidden keyword — casing
and comment placement are erased by the cleaning itself. -/
theorem classifier_denies_nonSelect_or_forbidden (q : Str)
    (h : (strOf "SELECT").isPrefixOf (cleanQuery q) = false
         ∨ ∃ k ∈ FORBIDDEN_KEYWORDS, containsSub k (cleanQuery q) = true) :
    (validate_read_only_query q).1 = false := by
  unfold validate_read_only_query
  split
  · rfl
  · simp only []
    split
    · rfl
    · next hsel =>
      have hsel2 : (strOf "SELECT").isPrefixOf (pyStrip (cleanQuery q)) = true := by
        revert hsel
        cases (strOf "SELECT").isPrefixOf (pyStrip (cleanQuery q)) <;> simp
      have hstart := select_prefix_of_strip q hsel2
      rcases h with hfalse | ⟨k, hk, hsub⟩
      · rw [hstart] at hfalse; exact absurd hfalse (by decide)
      · cases hfind : FORBIDDEN_KEYWORDS.find? (fun k => containsSub k (cleanQuery q)) with
        | some k' => simp [hfind]
        | none =>
          exact absurd hsub (by
            have := List.find?_eq_none.mp hfind k hk
            simpa using this)

/-- Witness for C1 at a concrete input: a stacked `DROP` query is denied. -/
theorem classifier_denies_witness :
    (validate_read_only_query (strOf "SELECT * FROM t; DROP TABLE t")).1 = false :=
  classifier_denies_nonSelect_or_forbidden (strOf "SELECT * FROM t; DROP TABLE t")
    (Or.inr ⟨strOf "DROP", by decide, by decide⟩)

/-- Embedding of Python's regex word class `\w`.  On a `str` pattern `\w`
is Unicode-aware: it matches the underscore and every Unicode-alphanumeric
character, not just `[A-Za-z0-9_]`.  The table below is the Latin-1
fragment (code points up to 255), taken from the Unicode character
database and checked against CPython: ASCII digits, uppercase and
lowercase letters, underscore, and the Latin-1 word characters
ª ² ³ µ ¹ º ¼ ½ ¾ À–Ö Ø–ö ø–ÿ.  Word characters of further scripts
(code points above U+00FF) are outside the model's character domain. -/
def pyWordChar (c : Char) : Bool :=
  let n := c.toNat
  (48 ≤ n && n ≤ 57) || (65 ≤ n && n ≤ 90) || n = 95 || (97 ≤ n && n ≤ 122)
  || n = 170 || (178 ≤ n && n ≤ 179) || n = 181 || (185 ≤ n && n ≤ 186)
  || (188 ≤ n && n ≤ 190) || (192 ≤ n && n ≤ 214) || (216 ≤ n && n ≤ 246)
  || (248 ≤ n && n ≤ 255)

/-- The set of characters the regex class `[^\w\-_]` of
`_sanitize_sql_identifier` does NOT delete: `\w` plus the hyphen (the `_`
in the class is already covered by `\w`).  This kept class is strictly
larger than the ASCII alphabet `[A-Za-z0-9_-]`. -/
def keepIdentChar (c : Char) : Bool := pyWordChar c || c = '-'

/-- Embedding of `FullAccessTools._sanitize_sql_identifier`:
`re.sub(r"[^\w\-_]", "", identifier)` deletes every character outside the
identifier alphabet; an empty result raises `ValueError`, modelled as `none`. -/
def sanitize_sql_identifier (s : Str) : Option Str :=
  if (s.filter keepIdentChar).isEmpty then none else some (s.filter keepIdentChar)

/-- The identifier alphabet `[A-Za-z0-9_-]` named by claim C9.  This
definition follows the claim's words (not the source), to be compared
with the kept class of the source regex, which is strictly larger. -/
def claimedIdentAlphabet (c : Char) : Bool :=
  ('A' ≤ c && c ≤ 'Z') || ('a' ≤ c && c ≤ 'z') || ('0' ≤ c && c ≤ '9')
  || c = '_' || c = '-'

/-- Counterexample to C9 as stated: Python's `\w` is Unicode-aware, so on
the input `é` (U+00E9, a Latin-1 letter) the sanitizer keeps the character
and returns `é`.  It does not raise although the input contains no
character of the claimed alphabet `[A-Za-z0-9_-]` (refuting the
raise-iff clause), and the returned string is not over that alphabet
(refuting the result-alphabet clause). -/
theorem sanitize_unicode_counterexample :
    sanitize_sql_identifier (strOf "é") = some (strOf "é")
    ∧ ∀ c ∈ strOf "é", claimedIdentAlphabet c = false := by
  decide

/-- C9 (amended): the sanitizer raises exactly when the input has no
character of the kept class of `re.sub(r"[^\w\-_]", "", ...)` — Python's
Unicode-aware `\w` plus the hyphen, a strict superset of the claimed
`[A-Za-z0-9_-]` alphabet — and on success the result is nonempty, consists
only of kept-class characters, and sanitizing it again returns it
unchanged (idempotence). -/
theorem sanitize_sql_identifier_spec (s : Str) :
    (sanitize_sql_identifier s = none ↔ ∀ c ∈ s, keepIdentChar c = false)
    ∧ ∀ r, sanitize_sql_identifier s = some r →
        r ≠ [] ∧ (∀ c ∈ r, keepIdentChar c = true)
        ∧ sanitize_sql_identifier r = some r := by
  constructor
  · constructor
    · intro h c hc
      unfold sanitize_sql_identifier at h
      split at h
      · next he =>
        have hnil := List.isEmpty_iff.mp he
        have := List.filter_eq_nil_iff.mp hnil c hc
        simpa using this
      · exact absurd h (by simp)
    · intro hall
      unfold sanitize_sql_identifier
      have hnil : s.filter keepIdentChar = [] :=
        List.filter_eq_nil_iff.mpr (fun c hc => by simp [hall c hc])
      simp [hnil]
  · intro r hr
    unfold sanitize_sql_identifier at hr
    split at hr
    · exact absurd hr (by simp)
    · next hne =>
      have hreq : r = s.filter keepIdentChar := (Option.some_inj.mp hr).symm
      have hmem : ∀ c ∈ r, keepIdentChar c = true := by
        intro c hc
        rw [hreq] at hc
        exact (List.mem_filter.mp hc).2
      refine ⟨?_, hmem, ?_⟩
      · intro hnil
        rw [hreq] at hnil
        simp [List.isEmpty_iff, hnil] at hne
      · unfold sanitize_sql_identifier
        have hself : r.filter keepIdentChar = r := List.filter_eq_self.mpr hmem
        rw [hself]
        split
        · next he2 =>
          subst hreq
          exact absurd he2 hne
        · rfl

/-- Witness for C9 at a concrete input: sanitizing a concrete dirty
identifier succeeds, and the result is a nonempty clean fixed point. -/
theorem sanitize_sql_identifier_spec_witness :
    strOf "tab-le_1" ≠ [] ∧ (∀ c ∈ strOf "tab-le_1", keepIdentChar c = true)
    ∧ sanitize_sql_identifier (strOf "tab-le_1") = some (strOf "tab-le_1") :=
  (sanitize_sql_identifier_spec (strOf "[tab-le_1]!")).2 (strOf "tab-le_1") (by decide)

/-- Embedding of `RateLimiter` (`mcp_server.py`).  Wall-clock timestamps
(Python floats from `datetime.now().timestamp()`) are modelled by an
arbitrary linearly ordered additive group `T`; `requests` models the Python
dict behaviourally as a total map with default `[]` (the code's
key-presence checks make a missing key indistinguishable from an empty
list).  `max_requests` is a Python int, kept as `ℤ`. -/
structure RateLimiter (T : Type) where
  max_requests : ℤ
  window_seconds : T
  requests : Str → List T

/-- Embedding of `RateLimiter.is_allowed`: evict timestamps no longer inside
the sliding window (strictly: keep `t` with `now - t < window`), write the
evicted history back, then reject if the surviving count has reached
`max_requests`, else append `now` and admit. -/
def RateLimiter.is_allowed {T : Type} [LinearOrderedAddCommGroup T]
    (rl : RateLimiter T) (client_id : Str) (now : T) : Bool × RateLimiter T :=
  let h2 := (rl.requests client_id).filter (fun t => now - t < rl.window_seconds)
  if rl.max_requests ≤ (h2.length : ℤ) then
    (false, { rl with requests := fun x => if x = client_id then h2 else rl.requests x })
  else
    (true, { rl with requests := fun x => if x = client_id then h2 ++ [now] else rl.requests x })

/-- Run a sequence of `is_allowed` calls from one caller at the given times,
collecting the verdicts and the final limiter state. -/
def admitSeq {T : Type} [LinearOrderedAddCommGroup T]
    (rl : RateLimiter T) (client_id : Str) : List T → List Bool × RateLimiter T
  | [] => ([], rl)
  | t :: ts =>
    let r := rl.is_allowed client_id t
    let rest := admitSeq r.2 client_id ts
    (r.1 :: rest.1, rest.2)

theorem admitSeq_all_admitted {T : Type} [LinearOrderedAddCommGroup T]
    (c : Str) (N : ℤ) (W : T) :
    ∀ (ts h : List T) (rl : RateLimiter T),
      rl.max_requests = N → rl.window_seconds = W → rl.requests c = h →
      ((h.length : ℤ) + ts.length ≤ N) →
      List.Pairwise (· ≤ ·) (h ++ ts) →
      (∀ u ∈ h ++ ts, ∀ v ∈ h ++ ts, u ≤ v → v - u < W) →
      (admitSeq rl c ts).1 = List.replicate ts.length true
      ∧ ((admitSeq rl c ts).2).requests c = h ++ ts := by
  intro ts
  induction ts with
  | nil =>
    intro h rl _ _ hreq _ _ _
    simp [admitSeq, hreq]
  | cons t ts' ih =>
    intro h rl hmax hwin hreq hlen hpw hwnd
    have hfilter : h.filter (fun u => t - u < rl.window_seconds) = h := by
      refine List.filter_eq_self.mpr (fun u hu => ?_)
      have hut : u ≤ t := by
        have := (List.pairwise_append.mp hpw).2.2 u hu t (by simp)
        exact this
      have := hwnd u (by simp [hu]) t (by simp) hut
      rw [hwin]
      simpa using this
    have hlt : (h.length : ℤ) < rl.max_requests := by
      rw [hmax]
      simp only [List.length_cons] at hlen
      omega
    have hstep : rl.is_allowed c t =
        (true, { rl with requests := fun x => if x = c then h ++ [t] else rl.requests x }) := by
      unfold RateLimiter.is_allowed
      rw [hreq, hfilter, if_neg (by omega)]
    have hlist : h ++ t :: ts' = (h ++ [t]) ++ ts' := by simp
    have ih2 := ih (h ++ [t])
      { rl with requests := fun x => if x = c then h ++ [t] else rl.requests x }
      hmax hwin (by simp)
      (by simp only [List.length_append, List.length_cons, List.length_nil] at hlen ⊢; push_cast; push_cast at hlen; omega)
      (by rw [← hlist]; exact hpw)
      (by rw [← hlist]; exact hwnd)
    refine ⟨?_, ?_⟩
    · show (admitSeq rl c (t :: ts')).1 = _
      unfold admitSeq
      rw [hstep]
      simp only [List.length_cons, List.replicate_succ]
      exact congrArg (true :: ·) ih2.1
    · show ((admitSeq rl c (t :: ts')).2).requests c = _
      unfold admitSeq
      rw [hstep]
      rw [hlist]
      exact ih2.2

/-- C4: per-caller sliding-window admission.  (a) From a fresh history, a
monotone sequence of at most `maxRequests` calls, pairwise within
`windowSeconds` of each other, is admitted in full and recorded in order;
(b) with `maxRequests` calls recorded, a further call within
`windowSeconds` of the oldest recorded call is rejected and the history is
unchanged (in particular nothing is appended); (c) in general a rejected
call leaves exactly the evicted history, appending no timestamp; (d) once
`windowSeconds` have elapsed since the oldest recorded call, that call is
evicted and admission resumes. -/
theorem rate_limiter_sliding_window {T : Type} [LinearOrderedAddCommGroup T]
    (N : ℕ) (W : T) (c : Str) (rl0 : RateLimiter T)
    (hN : rl0.max_requests = (N : ℤ)) (hW : rl0.window_seconds = W) :
    (∀ ts : List T, rl0.requests c = [] → ts.length ≤ N →
       List.Pairwise (· ≤ ·) ts →
       (∀ u ∈ ts, ∀ v ∈ ts, u ≤ v → v - u < W) →
       (admitSeq rl0 c ts).1 = List.replicate ts.length true
       ∧ ((admitSeq rl0 c ts).2).requests c = ts)
    ∧ (∀ (h : List T) (o now : T), rl0.requests c = h → h.length = N → o ∈ h →
       (∀ t ∈ h, o ≤ t) → now - o < W →
       (rl0.is_allowed c now).1 = false
       ∧ ((rl0.is_allowed c now).2).requests c = h)
    ∧ (∀ now, (rl0.is_allowed c now).1 = false →
       ((rl0.is_allowed c now).2).requests c
         = (rl0.requests c).filter (fun t => now - t < W))
    ∧ (∀ (h : List T) (o now : T), rl0.requests c = h → h.length = N → 0 < N →
       o ∈ h → W ≤ now - o → (rl0.is_allowed c now).1 = true) := by
  refine ⟨?_, ?_, ?_, ?_⟩
  · intro ts hfresh hlen hpw hwnd
    have := admitSeq_all_admitted c (N : ℤ) W ts [] rl0 hN hW hfresh
      (by simp; omega) (by simpa using hpw) (by simpa using hwnd)
    simpa using this
  · intro h o now hreq hlen ho hole hwin
    have hfilter : h.filter (fun t => now - t < rl0.window_seconds) = h := by
      refine List.filter_eq_self.mpr (fun t ht => ?_)
      have h1 : now - t ≤ now - o := sub_le_sub_left (hole t ht) now
      rw [hW]
      simpa using lt_of_le_of_lt h1 hwin
    constructor
    · simp only [RateLimiter.is_allowed]
      rw [hreq, hfilter, if_pos (by rw [hN, hlen])]
    · simp only [RateLimiter.is_allowed]
      rw [hreq, hfilter, if_pos (by rw [hN, hlen])]
      simp
  · intro now hrej
    simp only [RateLimiter.is_allowed] at hrej ⊢
    split at hrej
    · next hcond =>
      rw [if_pos hcond]
      simp [hW]
    · simp at hrej
  · intro h o now hreq hlen hpos ho hpast
    have hdrop : ((h.filter (fun t => now - t < rl0.window_seconds)).length : ℤ)
        < rl0.max_requests := by
      have hlt : (h.filter (fun t => now - t < rl0.window_seconds)).length < h.length := by
        refine List.length_filter_lt_length_iff_exists.mpr ⟨o, ho, ?_⟩
        rw [hW]
        simpa using not_lt.mpr hpast
      rw [hN]
      omega
    simp only [RateLimiter.is_allowed]
    rw [hreq, if_neg (by omega)]

/-- Concrete limiter for the C4 witness: limit 2 per 10 ticks, fresh. -/
def rlC4 : RateLimiter ℤ := ⟨2, 10, fun _ => []⟩

/-- Concrete limiter for the C4 witness: limit 2 per 10 ticks, with two
calls (at times 0 and 1) already recorded for caller `c1`. -/
def rlC4full : RateLimiter ℤ := ⟨2, 10, fun _ => [0, 1]⟩

/-- Witness for C4 at concrete inputs: two in-window calls are admitted;
a third at time 5 is rejected without touching the history; at time 12
(past the window of the oldest call) admission resumes. -/
theorem rate_limiter_sliding_window_witness :
    ((admitSeq rlC4 (strOf "c1") [0, 1]).1 = List.replicate 2 true
     ∧ ((admitSeq rlC4 (strOf "c1") [0, 1]).2).requests (strOf "c1") = [0, 1])
    ∧ ((rlC4full.is_allowed (strOf "c1") 5).1 = false
       ∧ ((rlC4full.is_allowed (strOf "c1") 5).2).requests (strOf "c1") = [0, 1])
    ∧ (rlC4full.is_allowed (strOf "c1") 12).1 = true := by
  have h0 := rate_limiter_sliding_window 2 (10 : ℤ) (strOf "c1") rlC4 rfl rfl
  have h1 := rate_limiter_sliding_window 2 (10 : ℤ) (strOf "c1") rlC4full rfl rfl
  exact ⟨h0.1 [0, 1] rfl (by decide) (by decide) (by decide),
         h1.2.1 [0, 1] 0 5 rfl rfl (by decide) (by decide) (by decide),
         h1.2.2.2 [0, 1] 0 12 rfl rfl (by decide) (by decide) (by decide)⟩

/-- Abstract state of `ConnectionPool` (`src/src/database/connection.py`).
`idle` counts connections sitting in the internal `Queue` (whose maxsize is
`pool_size + max_overflow`), `created` is `_created_connections`, and
`checkedOut` counts handles currently held by callers (implicit in the
Python code: handles that were handed out and not yet returned). -/
structure Pool where
  pool_size : ℕ
  max_overflow : ℕ
  idle : ℕ
  created : ℕ
  checkedOut : ℕ

/-- The hard ceiling `_max_connections = pool_size + max_overflow`. -/
def Pool.maxConnections (s : Pool) : ℕ := s.pool_size + s.max_overflow

/-- Outcome of `ConnectionPool.get_connection`: either a connection handle
is produced, or the call raises (`Limite máximo de conexões atingido` from
`_create_new_connection` after the queue wait times out or a dead handle
cannot be replaced). -/
inductive GetResult where
  | conn
  | poolLimit
deriving DecidableEq

/-- Embedding of `ConnectionPool.get_connection` followed by
`_create_new_connection` where the code calls it.  `probeOk` is the oracle
for the `SELECT 1` liveness probe of the popped handle.  When the probe
fails, the dead handle is closed (and never re-enters the queue) and
`_create_new_connection` runs: it increments `_created_connections` if the
ceiling is not reached, else raises — in neither case is the counter
decremented for the dead handle.  When the queue is empty (the `Empty`
branch, reached after the blocking wait times out), `_create_new_connection`
runs directly. -/
def Pool.get_connection (s : Pool) (probeOk : Bool) : GetResult × Pool :=
  if 0 < s.idle then
    if probeOk then
      (GetResult.conn, { s with idle := s.idle - 1, checkedOut := s.checkedOut + 1 })
    else if s.created < s.maxConnections then
      (GetResult.conn,
       { s with idle := s.idle - 1, created := s.created + 1,
                checkedOut := s.checkedOut + 1 })
    else
      (GetResult.poolLimit, { s with idle := s.idle - 1 })
  else
    if s.created < s.maxConnections then
      (GetResult.conn, { s with created := s.created + 1, checkedOut := s.checkedOut + 1 })
    else
      (GetResult.poolLimit, s)

/-- Embedding of `ConnectionPool.return_connection`.  `isOpen` is the
oracle for `not connection.closed`.  An open connection is put back in the
queue unless the queue is full (`put_nowait` raises `Full`), in which case
it is closed and the counter decremented; a closed connection just
decrements the counter. -/
def Pool.return_connection (s : Pool) (isOpen : Bool) : Pool :=
  if isOpen then
    if s.idle < s.maxConnections then
      { s with idle := s.idle + 1, checkedOut := s.checkedOut - 1 }
    else
      { s with created := s.created - 1, checkedOut := s.checkedOut - 1 }
  else
    { s with created := s.created - 1, checkedOut := s.checkedOut - 1 }

/-- Embedding of `ConnectionPool._initialize_pool`: `k` of the `pool_size`
eager creations succeed (each failed creation is logged and skipped). -/
def Pool.init (b o k : ℕ) : Pool := ⟨b, o, k, k, 0⟩

/-- One observable pool transition: a `get_connection` call with some probe
outcome, or a `return_connection` call for a handle a caller actually holds
(`0 < checkedOut` is the well-formedness of the trace: only checked-out
handles can be returned). -/
inductive PoolStep : Pool → Pool → Prop
  | get (probeOk : Bool) (s : Pool) : PoolStep s (s.get_connection probeOk).2
  | ret (isOpen : Bool) (s : Pool) (h : 0 < s.checkedOut) :
      PoolStep s (s.return_connection isOpen)

/-- The pool invariant: configuration fields are constant, live accounting
covers the handles in play, and the ceiling is never exceeded. -/
def PoolInv (b o : ℕ) (s : Pool) : Prop :=
  s.pool_size = b ∧ s.max_overflow = o
  ∧ s.idle + s.checkedOut ≤ s.created ∧ s.created ≤ b + o

theorem poolStep_preserves_inv {b o : ℕ} {s s' : Pool}
    (hinv : PoolInv b o s) (hstep : PoolStep s s') : PoolInv b o s' := by
  obtain ⟨hb, ho, hacc, hceil⟩ := hinv
  cases hstep with
  | get probeOk s =>
    unfold Pool.get_connection
    have hmax : s.maxConnections = b + o := by
      unfold Pool.maxConnections; rw [hb, ho]
    split
    · split
      · exact ⟨hb, ho, by simp; omega, by simp; omega⟩
      · split
        · next hlt => exact ⟨hb, ho, by simp; omega, by simp; rw [hmax] at hlt; omega⟩
        · exact ⟨hb, ho, by simp; omega, by simp; omega⟩
    · split
      · next hlt => exact ⟨hb, ho, by simp; omega, by simp; rw [hmax] at hlt; omega⟩
      · exact ⟨hb, ho, hacc, hceil⟩
  | ret isOpen s hco =>
    unfold Pool.return_connection
    split
    · split
      · exact ⟨hb, ho, by simp; omega, by simp; omega⟩
      · exact ⟨hb, ho, by simp; omega, by simp; omega⟩
    · exact ⟨hb, ho, by simp; omega, by simp; omega⟩

/-- C3: along every sequence of `get_connection` / `return_connection`
operations from an initial pool, the number of handles that exist
simultaneously (idle plus checked out) never exceeds the ceiling
`pool_size + max_overflow`; and a `get_connection` call arriving when all
`pool_size + max_overflow` handles are checked out finds the queue empty
and the ceiling reached, so (after its blocking wait times out) it fails
with the pool-exhausted error rather than producing a handle. -/
theorem pool_ceiling_and_exhaustion (b o k : ℕ) (hk : k ≤ b) (s : Pool)
    (hreach : Relation.ReflTransGen PoolStep (Pool.init b o k) s) :
    (s.idle + s.checkedOut ≤ b + o)
    ∧ (s.checkedOut = b + o →
       ∀ probeOk, (s.get_connection probeOk).1 = GetResult.poolLimit) := by
  have hinv : PoolInv b o s := by
    induction hreach with
    | refl => exact ⟨rfl, rfl, by simp [Pool.init], by simp [Pool.init]; omega⟩
    | tail _ hstep ih => exact poolStep_preserves_inv ih hstep
  obtain ⟨hb, ho, hacc, hceil⟩ := hinv
  constructor
  · omega
  · intro hfull probeOk
    have hidle : s.idle = 0 := by omega
    have hcre : s.created = b + o := by omega
    unfold Pool.get_connection
    rw [if_neg (by omega)]
    rw [if_neg (by unfold Pool.maxConnections; omega)]

/-- Witness for C3 at a concrete trace: pool with `pool_size = 2`,
`max_overflow = 1`, both eager creations succeeding; three acquires succeed
and exhaust the ceiling, and with all three handles checked out a fourth
acquire fails with the pool-exhausted error. -/
theorem pool_ceiling_and_exhaustion_witness :
    (let s := ((((Pool.init 2 1 2).get_connection true).2.get_connection true).2.get_connection
        true).2
     s.idle + s.checkedOut ≤ 3
     ∧ (s.checkedOut = 3 → ∀ probeOk, (s.get_connection probeOk).1 = GetResult.poolLimit)) := by
  have h := pool_ceiling_and_exhaustion 2 1 2 (by decide)
    ((((Pool.init 2 1 2).get_connection true).2.get_connection true).2.get_connection true).2
    (.tail (.tail (.tail .refl (PoolStep.get true _)) (PoolStep.get true _)) (PoolStep.get true _))
  exact h

/-- Counterexample to C6 as stated: starting from a pool with one idle
handle (`pool_size = 1`, `max_overflow = 1`, one eager creation), a
`get_connection` whose liveness probe fails discards the dead handle but
does NOT decrement `_created_connections`: the replacement creation raises
the counter from 1 to 2, so the dead handle permanently occupies capacity
instead of being decremented away. -/
theorem pool_probe_discard_counterexample :
    ((Pool.init 1 1 1).get_connection false).2.created = (Pool.init 1 1 1).created + 1
    ∧ ¬(((Pool.init 1 1 1).get_connection false).2.created ≤ (Pool.init 1 1 1).created) := by
  constructor
  · rfl
  · decide

/-- C6 (amended): a discarded handle never re-enters the idle set, and the
live count `_created_connections` is decremented in the two discard paths of
`return_connection` (closed handle; open handle with the queue full) — but
in the probe-failure path of `get_connection` the counter is NOT
decremented: a fresh handle is created (counter goes up by one) when the
ceiling allows, and otherwise the call raises with the counter unchanged. -/
theorem pool_discard_paths (s : Pool) :
    ((s.return_connection false).idle = s.idle
     ∧ (s.return_connection false).created = s.created - 1)
    ∧ (s.maxConnections ≤ s.idle →
       (s.return_connection true).idle = s.idle
       ∧ (s.return_connection true).created = s.created - 1)
    ∧ (0 < s.idle →
       (s.get_connection false).2.idle = s.idle - 1
       ∧ (s.get_connection false).2.created
         = (if s.created < s.maxConnections then s.created + 1 else s.created)) := by
  refine ⟨⟨?_, ?_⟩, ?_, ?_⟩
  · unfold Pool.return_connection; simp
  · unfold Pool.return_connection; simp
  · intro hfull
    unfold Pool.return_connection
    rw [if_pos rfl, if_neg (by omega)]
    exact ⟨rfl, rfl⟩
  · intro hidle
    unfold Pool.get_connection
    rw [if_pos hidle, if_neg (by simp)]
    constructor <;> split <;> rfl

/-- Witness for the amended C6 at concrete pools: a closed-handle return
and a full-queue return decrement the counter without touching the idle
set, and a failed probe leaves the counter undecremented. -/
theorem pool_discard_paths_witness :
    (((Pool.mk 1 1 0 2 1).return_connection false).idle = 0
     ∧ ((Pool.mk 1 1 0 2 1).return_connection false).created = 1)
    ∧ (((Pool.mk 1 0 1 1 1).return_connection true).idle = 1
       ∧ ((Pool.mk 1 0 1 1 1).return_connection true).created = 0)
    ∧ (((Pool.mk 1 1 1 1 0).get_connection false).2.idle = 0
       ∧ ((Pool.mk 1 1 1 1 0).get_connection false).2.created
         = (if (1 : ℕ) < (2 : ℕ) then 2 else 1)) := by
  refine ⟨(pool_discard_paths (Pool.mk 1 1 0 2 1)).1,
          (pool_discard_paths (Pool.mk 1 0 1 1 1)).2.1 (by decide),
          ?_⟩
  have h := (pool_discard_paths (Pool.mk 1 1 1 1 0)).2.2 (by decide)
  exact h

/-- A Python result dict (envelope), with `none` marking an absent key.
Rows returned by the database are opaque values of a type `α`.  Wall-clock
metadata (`execution_time`, `timestamp`) is opaque and modelled by integer
stamps.  Payload keys that no claim mentions (`table_name`, pagination
markers, ...) are elided. -/
structure PyDict (α : Type) where
  success : Bool
  error : Option Str := none
  errorCode : Option Str := none
  data : Option (List α) := none
  rowCount : Option ℕ := none
  truncated : Option Bool := none
  limitApplied : Option ℤ := none
  toolName : Option Str := none
  timestamp : Option ℤ := none
  executionTime : Option ℤ := none

/-- Python list slicing `xs[:n]`: for nonnegative `n` take `n` elements,
for negative `n` stop `|n|` before the end (clamped at zero). -/
def pySlice {α : Type} (xs : List α) (n : ℤ) : List α :=
  if 0 ≤ n then xs.take n.toNat else xs.take ((xs.length : ℤ) + n).toNat

/-- The effective limit of `execute_select`: Python
`limit = limit or self.max_result_rows` replaces a missing or zero (falsy)
limit by `max_result_rows`. -/
def effLimit (maxResultRows : ℤ) (limit : Option ℤ) : ℤ :=
  match limit with
  | some l => if l = 0 then maxResultRows else l
  | none => maxResultRows

/-- The TOP rewrite of `execute_select`: when neither `TOP` nor `FETCH`
occurs in the uppercased query text, the query is stripped and, if it
starts with `SELECT`, rewritten to `SELECT TOP {limit} ` plus the text
after the first six characters. -/
def rewriteTop (lim : ℤ) (query : Str) : Str :=
  if !(containsSub (strOf "TOP") (pyUpper query))
     && !(containsSub (strOf "FETCH") (pyUpper query)) then
    let qs := pyStrip query
    if (strOf "SELECT").isPrefixOf (pyUpper qs) then
      strOf "SELECT TOP " ++ strOf (toString lim) ++ strOf " " ++ qs.drop 6
    else qs
  else query

/-- Embedding of `ReadOnlyTools.execute_select`.  `backend` is the oracle
for `db.execute_query` (`.error` = the backend raising, caught by the
method's `except`).  The second component lists the queries actually sent
to the pool — empty exactly when no backend call is made. -/
def execute_select {α : Type} (maxResultRows : ℤ) (backend : Str → Except Str (List α))
    (query : Str) (limit : Option ℤ) : PyDict α × List Str :=
  match validate_read_only_query query with
  | (false, msg) =>
    ({ success := false, error := some (strOf "Query inválida: " ++ msg),
       data := some [] }, [])
  | (true, _) =>
    let lim := effLimit maxResultRows limit
    let q2 := rewriteTop lim query
    match backend q2 with
    | .error e => ({ success := false, error := some e, data := some [] }, [q2])
    | .ok results =>
      if (results.length : ℤ) > lim then
        ({ success := true, data := some (pySlice results lim),
           rowCount := some (pySlice results lim).length, truncated := some true,
           limitApplied := some lim }, [q2])
      else
        ({ success := true, data := some results, rowCount := some results.length,
           truncated := some false, limitApplied := some lim }, [q2])

/-- Counterexample to C5 as stated: on a classifier-denied query,
`execute_select` returns a failure envelope that carries NO `error_code`
key at all — in particular not `VALIDATION_FAILED` — though it is a
failure and no backend call is made. -/
theorem execute_select_no_validation_failed_code :
    (execute_select (α := Unit) 1000 (fun _ => Except.ok [])
        (strOf "SELECT * FROM t; DROP TABLE t") none).1.errorCode = none
    ∧ ¬((execute_select (α := Unit) 1000 (fun _ => Except.ok [])
        (strOf "SELECT * FROM t; DROP TABLE t") none).1.errorCode
        = some (strOf "VALIDATION_FAILED")) := by
  constructor
  · rfl
  · decide

/-- C5 (amended): in READ_ONLY mode, for every query the classifier
denies, `execute_select` returns a failure envelope (`success = false`)
whose `error` carries `Query inválida: ` plus the classifier's reason and
which has no `error_code` key, and the query is never sent to the pool
(no backend call is made). -/
theorem execute_select_denied_envelope {α : Type} (maxResultRows : ℤ)
    (backend : Str → Except Str (List α)) (query : Str) (limit : Option ℤ)
    (hdeny : (validate_read_only_query query).1 = false) :
    (execute_select maxResultRows backend query limit).1.success = false
    ∧ (execute_select maxResultRows backend query limit).1.error
      = some (strOf "Query inválida: " ++ (validate_read_only_query query).2)
    ∧ (execute_select maxResultRows backend query limit).1.errorCode = none
    ∧ (execute_select maxResultRows backend query limit).2 = [] := by
  unfold execute_select
  cases hv : validate_read_only_query query with
  | mk b msg =>
    cases b with
    | false => exact ⟨rfl, rfl, rfl, rfl⟩
    | true => rw [hv] at hdeny; exact absurd hdeny (by simp)

/-- Witness for C5 at a concrete denied query. -/
theorem execute_select_denied_envelope_witness :
    (execute_select (α := Unit) 1000 (fun _ => Except.ok [])
        (strOf "DELETE FROM t") none).1.success = false
    ∧ (execute_select (α := Unit) 1000 (fun _ => Except.ok [])
        (strOf "DELETE FROM t") none).1.error
      = some (strOf "Query inválida: "
          ++ (validate_read_only_query (strOf "DELETE FROM t")).2)
    ∧ (execute_select (α := Unit) 1000 (fun _ => Except.ok [])
        (strOf "DELETE FROM t") none).1.errorCode = none
    ∧ (execute_select (α := Unit) 1000 (fun _ => Except.ok [])
        (strOf "DELETE FROM t") none).2 = [] :=
  execute_select_denied_envelope 1000 (fun _ => Except.ok [])
    (strOf "DELETE FROM t") none (by decide)

/-- Counterexample to C10 as stated: with the explicit limit argument `0`,
`limit or self.max_result_rows` discards the given limit (0 is falsy in
Python), so `limit_applied` is `max_result_rows` (here 1000), not the given
limit. -/
theorem execute_select_limit_zero_counterexample :
    (execute_select (α := Unit) 1000 (fun _ => Except.ok [])
        (strOf "SELECT c FROM t") (some 0)).1.limitApplied = some 1000
    ∧ ¬((execute_select (α := Unit) 1000 (fun _ => Except.ok [])
        (strOf "SELECT c FROM t") (some 0)).1.limitApplied = some 0) := by
  constructor
  · rfl
  · decide

/-- C10 (amended): for every classifier-accepted query and limit argument,
a successful `execute_select` envelope reports `limit_applied` equal to the
effective limit (the given limit when nonzero, else `max_result_rows` —
for a given limit of 0 the envelope reports `max_result_rows`, not 0);
and whenever the effective limit is nonnegative, `row_count` equals the
length of `data`, `data` holds at most `limit_applied` rows, and
`truncated` is true exactly when the backend returned more rows than the
effective limit.  The bound comes from the post-hoc slice, so it holds
whether or not the TOP rewrite was applied (`rewriteTop` returns the query
unchanged when `TOP` or `FETCH` occurs in it). -/
theorem execute_select_success_bounds {α : Type} (maxResultRows : ℤ)
    (backend : Str → Except Str (List α)) (query : Str) (limit : Option ℤ)
    (rows : List α)
    (hallow : (validate_read_only_query query).1 = true)
    (hrows : backend (rewriteTop (effLimit maxResultRows limit) query) = Except.ok rows)
    (hpos : 0 ≤ effLimit maxResultRows limit) :
    (execute_select maxResultRows backend query limit).1.success = true
    ∧ (execute_select maxResultRows backend query limit).1.limitApplied
        = some (effLimit maxResultRows limit)
    ∧ (∃ d, (execute_select maxResultRows backend query limit).1.data = some d
        ∧ (execute_select maxResultRows backend query limit).1.rowCount = some d.length
        ∧ (d.length : ℤ) ≤ effLimit maxResultRows limit)
    ∧ (execute_select maxResultRows backend query limit).1.truncated
        = some (decide ((rows.length : ℤ) > effLimit maxResultRows limit)) := by
  unfold execute_select
  cases hv : validate_read_only_query query with
  | mk b msg =>
    cases b with
    | false => rw [hv] at hallow; exact absurd hallow (by simp)
    | true =>
      simp only [hrows]
      split
      · next hgt =>
        refine ⟨rfl, rfl, ⟨pySlice rows (effLimit maxResultRows limit), rfl, rfl, ?_⟩, ?_⟩
        · unfold pySlice
          rw [if_pos hpos]
          have h1 : (rows.take (effLimit maxResultRows limit).toNat).length
              ≤ (effLimit maxResultRows limit).toNat := by
            simp [List.length_take]
          omega
        · simp [hgt]
      · next hle =>
        refine ⟨rfl, rfl, ⟨rows, rfl, rfl, by omega⟩, by simp [hle]⟩

/-- Witness for the amended C10 at concrete inputs: an accepted query, a
backend returning three rows, and an effective limit of 2. -/
theorem execute_select_success_bounds_witness :
    (execute_select (α := ℕ) 1000 (fun _ => Except.ok [10, 20, 30])
        (strOf "SELECT c FROM t") (some 2)).1.success = true
    ∧ (execute_select (α := ℕ) 1000 (fun _ => Except.ok [10, 20, 30])
        (strOf "SELECT c FROM t") (some 2)).1.limitApplied = some (effLimit 1000 (some 2))
    ∧ (∃ d, (execute_select (α := ℕ) 1000 (fun _ => Except.ok [10, 20, 30])
          (strOf "SELECT c FROM t") (some 2)).1.data = some d
        ∧ (execute_select (α := ℕ) 1000 (fun _ => Except.ok [10, 20, 30])
            (strOf "SELECT c FROM t") (some 2)).1.rowCount = some d.length
        ∧ (d.length : ℤ) ≤ effLimit 1000 (some 2))
    ∧ (execute_select (α := ℕ) 1000 (fun _ => Except.ok [10, 20, 30])
        (strOf "SELECT c FROM t") (some 2)).1.truncated
      = some (decide ((([10, 20, 30] : List ℕ).length : ℤ) > effLimit 1000 (some 2))) :=
  execute_select_success_bounds 1000 (fun _ => Except.ok [10, 20, 30])
    (strOf "SELECT c FROM t") (some 2) [10, 20, 30] (by decide) rfl (by decide)

/-- Embedding of `FullAccessTools.execute_query` (the write-tools wrapper
around `db.execute_query`): a backend success yields a success envelope
with the rows, a backend exception is caught and yields a failure
envelope.  The second component records the query sent to the pool.
Bound parameter values are opaque and not modelled (no claim touches
them). -/
def fat_execute_query {α : Type} (backend : Str → Except Str (List α))
    (query : Str) : PyDict α × List Str :=
  match backend query with
  | .ok results =>
    ({ success := true, data := some results, rowCount := some results.length }, [query])
  | .error e => ({ success := false, error := some e, data := some [] }, [query])

/-- Embedding of `FullAccessTools._validate_table_name`: reject empty or
all-whitespace names, sanitize the stripped name, reject results longer
than 128 characters.  A raised `ValueError` is `.error` with the message. -/
def validate_table_name (table_name : Str) : Except Str Str :=
  if table_name.isEmpty || (pyStrip table_name).isEmpty then
    .error (strOf "Nome da tabela não pode estar vazio")
  else
    match sanitize_sql_identifier (pyStrip table_name) with
    | none => .error (strOf "Identificador inválido após sanitização")
    | some clean =>
      if 128 < clean.length then
        .error (strOf "Nome da tabela muito longo (máximo 128 caracteres)")
      else .ok clean

/-- Python `schema = schema or "dbo"`: a missing or empty (falsy) schema
becomes `dbo`. -/
def schemaOrDbo (schema : Option Str) : Str :=
  match schema with
  | some s => if s.isEmpty then strOf "dbo" else s
  | none => strOf "dbo"

/-- Embedding of `FullAccessTools.update_data`.  `set_keys` is the ordered
key list of the `set_values` dict (values are bound parameters, opaque).
Identifier sanitization failures raise `ValueError`, caught by the
method's outer `except` into a failure envelope with no backend call.
NOTE (the point of claim C2): the WHERE clause is only appended when
nonempty — there is no guard, an empty WHERE clause still executes the
unfiltered `UPDATE`. -/
def update_data {α : Type} (backend : Str → Except Str (List α))
    (table_name : Str) (set_keys : List Str) (where_clause : Str)
    (schema : Option Str) : PyDict α × List Str :=
  match validate_table_name table_name with
  | .error e => ({ success := false, error := some e }, [])
  | .ok ctn =>
    match sanitize_sql_identifier (schemaOrDbo schema) with
    | none =>
      ({ success := false, error := some (strOf "Identificador inválido após sanitização") }, [])
    | some cs =>
      match set_keys.mapM sanitize_sql_identifier with
      | none =>
        ({ success := false, error := some (strOf "Identificador inválido após sanitização") }, [])
      | some cols =>
        let set_sql := List.intercalate (strOf ", ")
          (cols.map (fun col => strOf "[" ++ col ++ strOf "] = ?"))
        let q0 := strOf "UPDATE [" ++ cs ++ strOf "].[" ++ ctn ++ strOf "] SET " ++ set_sql
        let q := if !where_clause.isEmpty then q0 ++ strOf " WHERE " ++ where_clause else q0
        fat_execute_query backend q

/-- Embedding of `FullAccessTools.delete_data`.  Unlike `update_data`, an
empty WHERE clause short-circuits into a protection envelope before any
backend call. -/
def delete_data {α : Type} (backend : Str → Except Str (List α))
    (table_name : Str) (where_clause : Str) (schema : Option Str) :
    PyDict α × List Str :=
  match validate_table_name table_name with
  | .error e => ({ success := false, error := some e }, [])
  | .ok ctn =>
    match sanitize_sql_identifier (schemaOrDbo schema) with
    | none =>
      ({ success := false, error := some (strOf "Identificador inválido após sanitização") }, [])
    | some cs =>
      if !where_clause.isEmpty then
        fat_execute_query backend
          (strOf "DELETE FROM [" ++ cs ++ strOf "].[" ++ ctn ++ strOf "] WHERE " ++ where_clause)
      else
        ({ success := false,
           error := some (strOf "DELETE sem cláusula WHERE não é permitido por segurança") }, [])

/-- Counterexample to C2 as stated: `update_data` invoked with an empty
WHERE clause does NOT return a validation failure — it builds the
unfiltered `UPDATE [dbo].[t] SET [a] = ?` and executes it against the
backend (one backend call, success envelope here). -/
theorem update_data_empty_where_counterexample :
    (update_data (α := Unit) (fun _ => Except.ok []) (strOf "t") [strOf "a"] [] none).1.success
      = true
    ∧ (update_data (α := Unit) (fun _ => Except.ok []) (strOf "t") [strOf "a"] [] none).2
      = [strOf "UPDATE [dbo].[t] SET [a] = ?"] := by
  constructor
  · rfl
  · rfl

/-- C2 (amended): `delete_data` invoked with an empty WHERE clause always
returns a failure envelope and issues no backend call, whatever the table
name and schema; `update_data` has no such guard — with an empty WHERE
clause and valid identifiers it sends the WHERE-less `UPDATE` statement to
the backend. -/
theorem delete_empty_where_guard_update_unguarded {α : Type}
    (backend : Str → Except Str (List α)) :
    (∀ (table_name : Str) (schema : Option Str),
       (delete_data backend table_name [] schema).1.success = false
       ∧ (delete_data backend table_name [] schema).2 = [])
    ∧ (∀ (table_name : Str) (set_keys : List Str) (schema : Option Str)
         (ctn cs : Str) (cols : List Str),
       validate_table_name table_name = .ok ctn →
       sanitize_sql_identifier (schemaOrDbo schema) = some cs →
       set_keys.mapM sanitize_sql_identifier = some cols →
       (update_data backend table_name set_keys [] schema).2
         = [strOf "UPDATE [" ++ cs ++ strOf "].[" ++ ctn ++ strOf "] SET "
            ++ List.intercalate (strOf ", ")
                 (cols.map (fun col => strOf "[" ++ col ++ strOf "] = ?"))]) := by
  constructor
  · intro table_name schema
    unfold delete_data
    cases hvt : validate_table_name table_name with
    | error e => exact ⟨rfl, rfl⟩
    | ok ctn =>
      cases hs : sanitize_sql_identifier (schemaOrDbo schema) with
      | none => exact ⟨rfl, rfl⟩
      | some cs => exact ⟨rfl, rfl⟩
  · intro table_name set_keys schema ctn cs cols hvt hs hcols
    unfold update_data
    rw [hvt, hs, hcols]
    simp only [fat_execute_query, List.isEmpty_nil, Bool.not_true, if_false]
    split <;> rfl

/-- Witness for the amended C2 at concrete inputs: a delete without WHERE
is refused with no backend call; an update without WHERE issues exactly
the unfiltered UPDATE statement. -/
theorem delete_empty_where_guard_witness :
    ((delete_data (α := Unit) (fun _ => Except.ok []) (strOf "t") [] none).1.success = false
     ∧ (delete_data (α := Unit) (fun _ => Except.ok []) (strOf "t") [] none).2 = [])
    ∧ (update_data (α := Unit) (fun _ => Except.ok []) (strOf "t") [strOf "a"] [] none).2
      = [strOf "UPDATE [" ++ strOf "dbo" ++ strOf "].[" ++ strOf "t" ++ strOf "] SET "
         ++ List.intercalate (strOf ", ")
              ([strOf "a"].map (fun col => strOf "[" ++ col ++ strOf "] = ?"))] :=
  ⟨(delete_empty_where_guard_update_unguarded (α := Unit) (fun _ => Except.ok [])).1
      (strOf "t") none,
   (delete_empty_where_guard_update_unguarded (α := Unit) (fun _ => Except.ok [])).2
      (strOf "t") [strOf "a"] none (strOf "t") (strOf "dbo") [strOf "a"]
      rfl rfl rfl⟩

/-- The two operating modes of `MCPSQLServerConfig` (any other value of
`MCP_MODE` is rejected at construction). -/
inductive Mode where
  | READ_ONLY
  | FULL_ACCESS
deriving DecidableEq

/-- One registered tool of `_register_tools`: its name, the parameters its
registered schema declares `required: True`, and the remaining declared
(optional) parameters.  For every tool these coincide with the bound
Python method's required positional parameters and optional keyword
parameters, so the same lists govern call binding. -/
structure ToolSig where
  name : Str
  required : List Str
  optional : List Str

/-- The READ_ONLY catalogue of `_register_tools` (always registered). -/
def readonlyTools : List ToolSig :=
  [⟨strOf "list_tables", [], [strOf "schema"]⟩,
   ⟨strOf "describe_table", [strOf "table_name"], [strOf "schema"]⟩,
   ⟨strOf "list_columns", [strOf "table_name"], [strOf "schema"]⟩,
   ⟨strOf "list_indexes", [strOf "table_name"], [strOf "schema"]⟩,
   ⟨strOf "list_views", [], []⟩,
   ⟨strOf "list_procedures", [], []⟩,
   ⟨strOf "list_functions", [], []⟩,
   ⟨strOf "execute_select", [strOf "query"], [strOf "limit"]⟩,
   ⟨strOf "get_table_data", [strOf "table_name"],
      [strOf "schema", strOf "limit", strOf "offset"]⟩,
   ⟨strOf "get_database_schema", [], []⟩,
   ⟨strOf "check_constraints", [strOf "table_name"], [strOf "schema"]⟩]

/-- The FULL_ACCESS-only catalogue of `_register_tools`. -/
def writeTools : List ToolSig :=
  [⟨strOf "execute_query", [strOf "query"], [strOf "params"]⟩,
   ⟨strOf "create_table", [strOf "table_name", strOf "columns"], [strOf "schema"]⟩,
   ⟨strOf "alter_table", [strOf "table_name", strOf "operation"],
      [strOf "column_definition", strOf "schema"]⟩,
   ⟨strOf "drop_table", [strOf "table_name"], [strOf "schema"]⟩,
   ⟨strOf "insert_data", [strOf "table_name", strOf "data"], [strOf "schema"]⟩,
   ⟨strOf "update_data", [strOf "table_name", strOf "set_values", strOf "where_clause"],
      [strOf "where_params", strOf "schema"]⟩,
   ⟨strOf "delete_data", [strOf "table_name", strOf "where_clause"],
      [strOf "where_params", strOf "schema"]⟩,
   ⟨strOf "create_index", [strOf "index_name", strOf "table_name", strOf "columns"],
      [strOf "unique", strOf "schema"]⟩,
   ⟨strOf "drop_index", [strOf "index_name", strOf "table_name"], [strOf "schema"]⟩,
   ⟨strOf "execute_procedure", [strOf "procedure_name"], [strOf "params", strOf "schema"]⟩,
   ⟨strOf "backup_table", [strOf "table_name"], [strOf "backup_name", strOf "schema"]⟩]

/-- Embedding of `self.available_tools` after `_register_tools`: the
read-only catalogue always, the write catalogue only in FULL_ACCESS mode. -/
def available_tools (mode : Mode) : List ToolSig :=
  readonlyTools ++ (if mode = Mode.FULL_ACCESS then writeTools else [])

/-- The method names of the active tools object (`ReadOnlyTools` defines
exactly the read-only tool methods; `FullAccessTools` inherits them and
adds the write methods), for the dispatcher's `hasattr` check. -/
def toolMethodNames (mode : Mode) : List Str :=
  (available_tools mode).map (fun t => t.name)

/-- Outcome of running a bound tool method: it returns a result dict, or
raises (the dispatcher catches the exception). -/
inductive HandlerOutcome (α : Type) where
  | ret (d : PyDict α)
  | raise (e : Str)

/-- Python call binding for `method(**arguments)`: a `TypeError` is raised
before the method body runs iff a required parameter is missing or an
unexpected keyword is passed. -/
def bindOk (sig : ToolSig) (argKeys : List Str) : Bool :=
  sig.required.all (fun p => p ∈ argKeys)
  && argKeys.all (fun k => k ∈ sig.required ++ sig.optional)

/-- Embedding of `MCPSQLServer.handle_tool_call`.  `handler` is the oracle
for the bound tool method's outcome; `elapsed` and `stamp` are the opaque
wall-clock values used for `execution_time` and `timestamp`.  Returns the
envelope, the limiter state after the call, and whether the bound handler
actually ran (the only place a backend call can originate).  Tool results
are dicts (`isinstance(result, dict)` always holds for the registered
tools), so the dispatcher stamps metadata onto every handler result; the
short-circuit rejections before dispatch return their small dicts
unstamped. -/
def handle_tool_call {α : Type} (mode : Mode)
    (handler : Str → List Str → HandlerOutcome α) (rl : RateLimiter ℤ)
    (tool_name : Str) (argKeys : List Str) (client_id : Str)
    (now elapsed stamp : ℤ) : PyDict α × RateLimiter ℤ × Bool :=
  let ra := rl.is_allowed client_id now
  if !ra.1 then
    ({ success := false,
       error := some (strOf "Rate limit excedido. Aguarde antes de fazer nova requisição."),
       errorCode := some (strOf "RATE_LIMIT_EXCEEDED") }, ra.2, false)
  else
    match (available_tools mode).find? (fun t => t.name = tool_name) with
    | none =>
      ({ success := false,
         error := some (strOf "Ferramenta \x27" ++ tool_name ++ strOf "\x27 não encontrada"),
         errorCode := some (strOf "TOOL_NOT_FOUND") }, ra.2, false)
    | some sig =>
      if tool_name ∈ toolMethodNames mode then
        if bindOk sig argKeys then
          match handler tool_name argKeys with
          | .ret d =>
            ({ d with executionTime := some elapsed, toolName := some tool_name,
                      timestamp := some stamp }, ra.2, true)
          | .raise e =>
            ({ success := false, error := some e,
               errorCode := some (strOf "EXECUTION_ERROR"),
               executionTime := some elapsed, toolName := some tool_name,
               timestamp := some stamp }, ra.2, true)
        else
          ({ success := false,
             error := some (strOf "TypeError ao vincular argumentos"),
             errorCode := some (strOf "EXECUTION_ERROR"),
             executionTime := some elapsed, toolName := some tool_name,
             timestamp := some stamp }, ra.2, false)
      else
        ({ success := false,
           error := some (strOf "Método \x27" ++ tool_name ++ strOf "\x27 não implementado"),
           errorCode := some (strOf "METHOD_NOT_IMPLEMENTED") }, ra.2, false)

/-- Counterexample to C7 as stated: a rate-limited call (limiter with
`max_requests = 0`) and an unknown-tool call (fresh limiter, unregistered
name) both return envelopes WITHOUT `tool_name`, `timestamp` or
`execution_time` — the dispatcher stamps metadata only on results that
reach or pass the dispatch step. -/
theorem handle_tool_call_metadata_counterexample :
    ((handle_tool_call (α := Unit) Mode.READ_ONLY
        (fun _ _ => HandlerOutcome.ret { success := true })
        ⟨0, 60, fun _ => []⟩ (strOf "list_tables") [] (strOf "c1") 0 7 9).1.errorCode
        = some (strOf "RATE_LIMIT_EXCEEDED")
     ∧ (handle_tool_call (α := Unit) Mode.READ_ONLY
        (fun _ _ => HandlerOutcome.ret { success := true })
        ⟨0, 60, fun _ => []⟩ (strOf "list_tables") [] (strOf "c1") 0 7 9).1.toolName = none
     ∧ (handle_tool_call (α := Unit) Mode.READ_ONLY
        (fun _ _ => HandlerOutcome.ret { success := true })
        ⟨0, 60, fun _ => []⟩ (strOf "list_tables") [] (strOf "c1") 0 7 9).1.timestamp = none
     ∧ (handle_tool_call (α := Unit) Mode.READ_ONLY
        (fun _ _ => HandlerOutcome.ret { success := true })
        ⟨0, 60, fun _ => []⟩ (strOf "list_tables") [] (strOf "c1") 0 7 9).1.executionTime = none)
    ∧ ((handle_tool_call (α := Unit) Mode.READ_ONLY
        (fun _ _ => HandlerOutcome.ret { success := true })
        ⟨60, 60, fun _ => []⟩ (strOf "no_such_tool") [] (strOf "c1") 0 7 9).1.errorCode
        = some (strOf "TOOL_NOT_FOUND")
     ∧ (handle_tool_call (α := Unit) Mode.READ_ONLY
        (fun _ _ => HandlerOutcome.ret { success := true })
        ⟨60, 60, fun _ => []⟩ (strOf "no_such_tool") [] (strOf "c1") 0 7 9).1.timestamp = none) := by
  exact ⟨⟨rfl, rfl, rfl, rfl⟩, rfl, rfl⟩

/-- C7 (amended): the dispatcher's rate-limit and tool-not-found rejection
envelopes carry only `success`, `error` and `error_code` (no `tool_name`,
`timestamp` or `execution_time`); every envelope produced at or after
dispatch — a handler result, a handler exception, or a call-binding
`TypeError` — carries `tool_name`, `timestamp` and `execution_time`. -/
theorem handle_tool_call_metadata {α : Type} (mode : Mode)
    (handler : Str → List Str → HandlerOutcome α) (rl : RateLimiter ℤ)
    (tool_name : Str) (argKeys : List Str) (client_id : Str)
    (now elapsed stamp : ℤ) :
    ((rl.is_allowed client_id now).1 = false →
       (handle_tool_call mode handler rl tool_name argKeys client_id now elapsed stamp).1.errorCode
         = some (strOf "RATE_LIMIT_EXCEEDED")
       ∧ (handle_tool_call mode handler rl tool_name argKeys client_id now elapsed stamp).1.toolName = none
       ∧ (handle_tool_call mode handler rl tool_name argKeys client_id now elapsed stamp).1.timestamp = none
       ∧ (handle_tool_call mode handler rl tool_name argKeys client_id now elapsed stamp).1.executionTime = none)
    ∧ ((rl.is_allowed client_id now).1 = true →
       (available_tools mode).find? (fun t => t.name = tool_name) = none →
       (handle_tool_call mode handler rl tool_name argKeys client_id now elapsed stamp).1.errorCode
         = some (strOf "TOOL_NOT_FOUND")
       ∧ (handle_tool_call mode handler rl tool_name argKeys client_id now elapsed stamp).1.toolName = none
       ∧ (handle_tool_call mode handler rl tool_name argKeys client_id now elapsed stamp).1.timestamp = none
       ∧ (handle_tool_call mode handler rl tool_name argKeys client_id now elapsed stamp).1.executionTime = none)
    ∧ (∀ sig, (rl.is_allowed client_id now).1 = true →
       (available_tools mode).find? (fun t => t.name = tool_name) = some sig →
       (handle_tool_call mode handler rl tool_name argKeys client_id now elapsed stamp).1.toolName
         = some tool_name
       ∧ (handle_tool_call mode handler rl tool_name argKeys client_id now elapsed stamp).1.timestamp
         = some stamp
       ∧ (handle_tool_call mode handler rl tool_name argKeys client_id now elapsed stamp).1.executionTime
         = some elapsed) := by
  refine ⟨?_, ?_, ?_⟩
  · intro hra
    simp [handle_tool_call, hra]
  · intro hra hfind
    simp [handle_tool_call, hra, hfind]
  · intro sig hra hfind
    have hname : sig.name = tool_name := by
      have := List.find?_some hfind
      simpa using this
    have hmem : tool_name ∈ toolMethodNames mode := by
      unfold toolMethodNames
      exact hname ▸ List.mem_map_of_mem _ (List.mem_of_find?_eq_some hfind)
    simp only [handle_tool_call, hra, Bool.not_true, Bool.false_eq_true, if_false, hfind,
      if_pos hmem]
    split
    · cases handler tool_name argKeys <;> exact ⟨rfl, rfl, rfl⟩
    · exact ⟨rfl, rfl, rfl⟩

/-- Witness for the amended C7 at concrete inputs: both rejection shapes
and a dispatched call carrying full metadata. -/
theorem handle_tool_call_metadata_witness :
    ((handle_tool_call (α := Unit) Mode.READ_ONLY
        (fun _ _ => HandlerOutcome.ret { success := true })
        ⟨0, 60, fun _ => []⟩ (strOf "list_tables") [] (strOf "c1") 0 7 9).1.errorCode
      = some (strOf "RATE_LIMIT_EXCEEDED")
     ∧ (handle_tool_call (α := Unit) Mode.READ_ONLY
        (fun _ _ => HandlerOutcome.ret { success := true })
        ⟨0, 60, fun _ => []⟩ (strOf "list_tables") [] (strOf "c1") 0 7 9).1.toolName = none
     ∧ (handle_tool_call (α := Unit) Mode.READ_ONLY
        (fun _ _ => HandlerOutcome.ret { success := true })
        ⟨0, 60, fun _ => []⟩ (strOf "list_tables") [] (strOf "c1") 0 7 9).1.timestamp = none
     ∧ (handle_tool_call (α := Unit) Mode.READ_ONLY
        (fun _ _ => HandlerOutcome.ret { success := true })
        ⟨0, 60, fun _ => []⟩ (strOf "list_tables") [] (strOf "c1") 0 7 9).1.executionTime = none)
    ∧ ((handle_tool_call (α := Unit) Mode.READ_ONLY
        (fun _ _ => HandlerOutcome.ret { success := true })
        ⟨60, 60, fun _ => []⟩ (strOf "list_tables") [] (strOf "c1") 0 7 9).1.toolName
      = some (strOf "list_tables")
     ∧ (handle_tool_call (α := Unit) Mode.READ_ONLY
        (fun _ _ => HandlerOutcome.ret { success := true })
        ⟨60, 60, fun _ => []⟩ (strOf "list_tables") [] (strOf "c1") 0 7 9).1.timestamp = some 9
     ∧ (handle_tool_call (α := Unit) Mode.READ_ONLY
        (fun _ _ => HandlerOutcome.ret { success := true })
        ⟨60, 60, fun _ => []⟩ (strOf "list_tables") [] (strOf "c1") 0 7 9).1.executionTime
      = some 7) :=
  ⟨(handle_tool_call_metadata Mode.READ_ONLY
      (fun _ _ => HandlerOutcome.ret { success := true })
      ⟨0, 60, fun _ => []⟩ (strOf "list_tables") [] (strOf "c1") 0 7 9).1 (by decide),
   (handle_tool_call_metadata Mode.READ_ONLY
      (fun _ _ => HandlerOutcome.ret { success := true })
      ⟨60, 60, fun _ => []⟩ (strOf "list_tables") [] (strOf "c1") 0 7 9).2.2
      ⟨strOf "list_tables", [], [strOf "schema"]⟩ (by decide) rfl⟩

/-- Counterexample to C8 as stated: invoking the registered tool
`describe_table` without its required `table_name` yields an
`EXECUTION_ERROR` envelope (the `TypeError` raised while binding
`method(**arguments)` is caught by the dispatcher's generic handler), not
a validation-failure envelope — no argument-shape check against the
registered schema ever runs.  (The handler itself is indeed not run.) -/
theorem missing_required_param_counterexample :
    (handle_tool_call (α := Unit) Mode.READ_ONLY
        (fun _ _ => HandlerOutcome.ret { success := true })
        ⟨60, 60, fun _ => []⟩ (strOf "describe_table") [] (strOf "c1") 0 7 9).1.errorCode
      = some (strOf "EXECUTION_ERROR")
    ∧ ¬((handle_tool_call (α := Unit) Mode.READ_ONLY
        (fun _ _ => HandlerOutcome.ret { success := true })
        ⟨60, 60, fun _ => []⟩ (strOf "describe_table") [] (strOf "c1") 0 7 9).1.errorCode
      = some (strOf "VALIDATION_FAILED")) := by
  exact ⟨rfl, by decide⟩

/-- C8 (amended): for every registered operation and argument map missing
a declared-required parameter, the dispatcher returns a failure envelope
with `error_code = EXECUTION_ERROR` (the binding `TypeError`, converted by
the generic exception handler) rather than a schema-validation failure;
the bound handler is not run, so no backend call is made.  No
argument-shape check against `parameterSchema` precedes the invocation. -/
theorem missing_required_param_execution_error {α : Type} (mode : Mode)
    (handler : Str → List Str → HandlerOutcome α) (rl : RateLimiter ℤ)
    (tool_name : Str) (argKeys : List Str) (client_id : Str)
    (now elapsed stamp : ℤ) (sig : ToolSig) (p : Str)
    (hra : (rl.is_allowed client_id now).1 = true)
    (hfind : (available_tools mode).find? (fun t => t.name = tool_name) = some sig)
    (hp : p ∈ sig.required) (hmiss : p ∉ argKeys) :
    (handle_tool_call mode handler rl tool_name argKeys client_id now elapsed stamp).1.success
      = false
    ∧ (handle_tool_call mode handler rl tool_name argKeys client_id now elapsed stamp).1.errorCode
      = some (strOf "EXECUTION_ERROR")
    ∧ (handle_tool_call mode handler rl tool_name argKeys client_id now elapsed stamp).2.2
      = false := by
  have hname : sig.name = tool_name := by
    have := List.find?_some hfind
    simpa using this
  have hmem : tool_name ∈ toolMethodNames mode := by
    unfold toolMethodNames
    exact hname ▸ List.mem_map_of_mem _ (List.mem_of_find?_eq_some hfind)
  have hbind : bindOk sig argKeys = false := by
    unfold bindOk
    have h1 : sig.required.all (fun q => decide (q ∈ argKeys)) = false := by
      rw [List.all_eq_false]
      exact ⟨p, hp, by simpa using hmiss⟩
    rw [h1]
    rfl
  simp [handle_tool_call, hra, hfind, if_pos hmem, hbind]

/-- Witness for the amended C8 at concrete inputs: `describe_table` with
an empty argument map. -/
theorem missing_required_param_execution_error_witness :
    (handle_tool_call (α := Unit) Mode.READ_ONLY
        (fun _ _ => HandlerOutcome.ret { success := true })
        ⟨60, 60, fun _ => []⟩ (strOf "describe_table") [] (strOf "c1") 0 7 9).1.success = false
    ∧ (handle_tool_call (α := Unit) Mode.READ_ONLY
        (fun _ _ => HandlerOutcome.ret { success := true })
        ⟨60, 60, fun _ => []⟩ (strOf "describe_table") [] (strOf "c1") 0 7 9).1.errorCode
      = some (strOf "EXECUTION_ERROR")
    ∧ (handle_tool_call (α := Unit) Mode.READ_ONLY
        (fun _ _ => HandlerOutcome.ret { success := true })
        ⟨60, 60, fun _ => []⟩ (strOf "describe_table") [] (strOf "c1") 0 7 9).2.2 = false :=
  missing_required_param_execution_error Mode.READ_ONLY
    (fun _ _ => HandlerOutcome.ret { success := true })
    ⟨60, 60, fun _ => []⟩ (strOf "describe_table") [] (strOf "c1") 0 7 9
    ⟨strOf "describe_table", [strOf "table_name"], [strOf "schema"]⟩ (strOf "table_name")
    (by decide) rfl (by decide) (by decide)
